import Mathlib

/-!
Verification of the gocaptcha request-scoring engine (`gocaptcha.go`)
against its natural-language specification.

The engine is shallowly embedded: every pure helper of the Go source is
translated to a Lean function and `CheckRequest` becomes `checkRequest`,
an explicit function of a configuration, a request snapshot and the
rate-limiter state for the request's origin.  Go strings are modelled as
`List Char`; Go `int`/`int64` values as `Int`; `float64` arithmetic in
`checkBehavior` is idealized over `ℝ` (`math.Hypot dx dy = Real.sqrt
(dx^2 + dy^2)`).  External collaborators (the SQLite configuration and
keyword store, the Unicode classification tables used by the Latin-only
form scan and by the content regexes) appear as oracle fields of the
request snapshot carrying the collaborator's answer for this request,
exactly where the source consults them.
-/

namespace GoCaptcha

set_option autoImplicit false

/-- Go strings, as lists of characters. -/
abbrev Str := List Char

/-- `strings.HasPrefix s p` : `p` is a prefix of `s`. -/
def hasPrefixL : Str → Str → Bool
  | _, [] => true
  | [], _ :: _ => false
  | c :: s, d :: p => (c == d) && hasPrefixL s p

/-- `strings.Contains s sub` : `sub` occurs as a contiguous substring of `s`. -/
def containsL : Str → Str → Bool
  | [], sub => sub.isEmpty
  | c :: rest, sub => hasPrefixL (c :: rest) sub || containsL rest sub

/-- `strings.HasSuffix s suf`. -/
def hasSuffixL (s suf : Str) : Bool := hasPrefixL s.reverse suf.reverse

/-- `strings.ToLower` (ASCII part; all strings the engine lowercases and
then searches are ASCII literals). -/
def toLowerL (s : Str) : Str := s.map Char.toLower

/-- `strings.TrimSpace` (common whitespace; the source trims Unicode
space, of which only ASCII whitespace is relevant to the claims). -/
def trimSpaceL (s : Str) : Str :=
  ((s.dropWhile Char.isWhitespace).reverse.dropWhile Char.isWhitespace).reverse

/-! ### Behavior traces (`checkBehavior`, source lines 289-348)

The client script submits a base64-encoded JSON array of events, each
either positional `{x,y,t}` (mouse move) or non-positional `{key,t}` /
`{click,t}`.  `json.Unmarshal` into the Go struct
`Event{X, Y int; T int64}` leaves absent `x`/`y` fields at their zero
value, which `toEvent` reproduces. -/

/-- The decoded Go `Event` struct: `X`, `Y int` and `T int64`
(absent JSON fields are zero). -/
structure Event where
  x : Int
  y : Int
  t : Int
deriving DecidableEq

/-- A client-side event as produced by the front-end script: a timestamp
together with an optional 2-D position (`{x,y,t}` events carry one,
`{key,t}` / `{click,t}` events do not). -/
structure JEvent where
  posn : Option (Int × Int)
  t : Int
deriving DecidableEq

/-- The position `json.Unmarshal` assigns: the event's own coordinates,
or the zero value `(0, 0)` when the JSON object has no `x`/`y` fields. -/
def posOf (e : JEvent) : Int × Int := e.posn.getD (0, 0)

/-- `json.Unmarshal` of one client event into the Go `Event` struct. -/
def toEvent (e : JEvent) : Event := ⟨(posOf e).1, (posOf e).2, e.t⟩

/-- The outcome of the decoding pipeline feeding `checkBehavior`:
the raw form value is empty, base64 decoding fails (or yields an empty
payload), JSON unmarshalling fails, or a list of events is obtained. -/
inductive BehaviorInput where
  | empty
  | decodeError
  | parseError
  | events (evs : List JEvent)

/-- The strictly-increasing-timestamps loop of `checkBehavior`,
continuing from a previous timestamp `prev`. -/
def monoOkFrom (prev : Int) : List Event → Bool
  | [] => true
  | e :: rest => if e.t ≤ prev then false else monoOkFrom e.t rest

/-- `checkBehavior`'s timestamp monotonicity scan (`prev := events[0].T`,
then each later event must be strictly larger). -/
def monoOk : List Event → Bool
  | [] => true
  | e :: rest => monoOkFrom e.t rest

/-- Timestamp of the first event (`events[0].T`); 0 on an empty list,
which `checkBehavior` never reaches. -/
def headT : List Event → Int
  | [] => 0
  | e :: _ => e.t

/-- Timestamp of the last event (`events[len(events)-1].T`). -/
def lastT : List Event → Int
  | [] => 0
  | [e] => e.t
  | _ :: e :: rest => lastT (e :: rest)

/-- `dur := events[len(events)-1].T - events[0].T`. -/
def durOf (evs : List Event) : Int := lastT evs - headT evs

/-- Consecutive inter-event timestamp deltas
(`events[i].T - events[i-1].T` for `i = 1 .. len-1`). -/
def deltasOf : List Event → List Int
  | a :: b :: rest => (b.t - a.t) :: deltasOf (b :: rest)
  | _ => []

/-- `math.Hypot dx dy` over integer deltas, idealized to `ℝ`. -/
noncomputable def hypotR (dx dy : Int) : ℝ :=
  Real.sqrt ((dx : ℝ) ^ 2 + (dy : ℝ) ^ 2)

/-- The `totalDist` accumulation of `checkBehavior`: the Euclidean
distance between every pair of consecutive decoded events. -/
noncomputable def totalDist : List Event → ℝ
  | a :: b :: rest => hypotR (b.x - a.x) (b.y - a.y) + totalDist (b :: rest)
  | _ => 0

/-- Pairwise Euclidean distance along a list of 2-D points. -/
noncomputable def pairDist : List (Int × Int) → ℝ
  | p :: q :: rest => hypotR (q.1 - p.1) (q.2 - p.2) + pairDist (q :: rest)
  | _ => 0

/-- The positions of the events that actually carry positional data. -/
def positionsOf (evs : List JEvent) : List (Int × Int) :=
  evs.filterMap (fun e => e.posn)

/-- Modelled from the spec: "distance is computed pairwise between
consecutive events using only those carrying positional data; …
non-positional events contribute zero movement between neighbors"
(§4.3).  This is the spec's movement distance, to be compared against
the source's `totalDist`. -/
noncomputable def specMovementDist (evs : List JEvent) : ℝ :=
  pairDist (positionsOf evs)

/-- Replace every event by a positional event at the coordinates
`json.Unmarshal` assigns it (non-positional events land at the origin). -/
def allPositional (evs : List JEvent) : List JEvent :=
  evs.map (fun e => ⟨some (posOf e), e.t⟩)

/-- `checkBehavior` from the JSON-decoded event list onward (source
lines 305-347): event count, monotonicity, duration, total movement and
timing-variance checks, in source order.  `float64` arithmetic is
idealized over `ℝ`. -/
noncomputable def checkBehaviorEvents (evs : List Event) : Bool × String :=
  if evs.length < 5 then (false, "behavior_not_enough_events")
  else if monoOk evs = false then (false, "behavior_non_monotonic_time")
  else if durOf evs < 600 then (false, "behavior_too_short")
  else if totalDist evs < 40 then (false, "behavior_low_movement")
  else
    let ds := deltasOf evs
    let n : ℝ := (ds.length : ℝ)
    let sum : ℝ := (ds.map (fun d => (d : ℝ))).sum
    let sumsq : ℝ := (ds.map (fun d => (d : ℝ) * (d : ℝ))).sum
    let mean : ℝ := sum / n
    if 0 < mean then
      if Real.sqrt (sumsq / n - mean * mean) < 10 then
        (false, "behavior_low_timing_variance")
      else (true, "")
    else (true, "")

/-- `checkBehavior` (source lines 291-348): the three decode-stage
failures, then the event-list checks on the unmarshalled events. -/
noncomputable def checkBehavior : BehaviorInput → Bool × String
  | .empty => (false, "missing_behavior")
  | .decodeError => (false, "behavior_decode_error")
  | .parseError => (false, "behavior_not_enough_events")
  | .events evs => checkBehaviorEvents (evs.map toEvent)

/-! ### Content heuristics (`analyzeFormContent`, source lines 350-451)

The field-classification loop and the regex / Unicode-table primitives
(`urlRe`, `kwRe`, `emailRe`, `unicode.Is`, `utf8.RuneCountInString`)
operate on the submitted text; their results for this request are the
fields of `ContentSignals`, and `analyzeFormContent` is the source's
penalty accumulation over them, in source order. -/

/-- The text-analysis primitives' answers for one request's classified
fields (message = concatenation of all message-synonym fields, name /
email / website after `strings.TrimSpace`). -/
structure ContentSignals where
  /-- `len(urlRe.FindAllString(msg, -1))` : URL occurrences in the message. -/
  linkCount : Nat
  /-- `kwRe.MatchString(msg)` with a non-empty configured keyword set. -/
  keywordMatch : Bool
  /-- count of symbol-category / emoji-block code points in the message. -/
  emojiCount : Nat
  /-- `hasRepeatedPunct(msg)`. -/
  repeatedPunct : Bool
  /-- `name != ""` after trimming. -/
  namePresent : Bool
  /-- `urlRe.MatchString(name)`. -/
  nameHasUrl : Bool
  /-- `website != ""` after trimming. -/
  websitePresent : Bool
  /-- `urlRe.MatchString(website)`. -/
  websiteLooksUrl : Bool
  /-- `email != ""` after trimming. -/
  emailPresent : Bool
  /-- `emailRe.MatchString(email)`. -/
  emailValid : Bool
  /-- `utf8.RuneCountInString(msg)`. -/
  msgRuneCount : Nat
deriving DecidableEq

/-- The link penalty of `analyzeFormContent` (line 380):
`pen := -2 - int(math.Min(float64(n-1), 2))`. -/
def linkPenalty (n : Nat) : Int := -2 - min ((n : Int) - 1) 2

/-- `analyzeFormContent`: accumulates the penalty delta and reason list
over the content checks, in source order. -/
def analyzeFormContent (s : ContentSignals) : Int × List String :=
  let a0 : Int × List String := (0, [])
  let a1 := if 0 < s.linkCount then
      (a0.1 + linkPenalty s.linkCount,
       a0.2 ++ ["links_in_message:" ++ toString s.linkCount])
    else a0
  let a2 := if s.keywordMatch then (a1.1 - 3, a1.2 ++ ["spam_keywords"]) else a1
  let a3 := if 5 ≤ s.emojiCount then
      (a2.1 - 1, a2.2 ++ ["emoji_overuse:" ++ toString s.emojiCount])
    else a2
  let a4 := if 12 ≤ s.emojiCount then (a3.1 - 1, a3.2) else a3
  let a5 := if s.repeatedPunct then (a4.1 - 1, a4.2 ++ ["repeated_punct"]) else a4
  let a6 := if s.namePresent && s.nameHasUrl then
      (a5.1 - 2, a5.2 ++ ["name_contains_url"])
    else a5
  let a7 := if s.websitePresent && !s.websiteLooksUrl then
      (a6.1 - 1, a6.2 ++ ["website_invalid"])
    else a6
  let a8 := if s.emailPresent && !s.emailValid then
      (a7.1 - 1, a7.2 ++ ["email_invalid"])
    else a7
  let a9 := if s.msgRuneCount < 15 && 0 < s.linkCount then
      (a8.1 - 1, a8.2 ++ ["short_msg_with_link"])
    else a8
  a9

/-! ### Request snapshot, configuration, bypass and rate limiter -/

/-- The request snapshot: everything `CheckRequest` reads from the
`*http.Request` and from the per-evaluation collaborator queries.
`tsField` is `none` when the `ts` form value is empty, `some none` when
`strconv.ParseInt` fails on it, `some (some v)` when it parses to `v`.
`cookieJs` is `none` when `r.Cookie("js_captcha")` returns
`http.ErrNoCookie`.  `latinOnlyEnabled` is the configuration
collaborator's `getConfigBool("latin_only", false)` answer and
`formIsLatin` the Unicode-table result of `formIsLatinOnly(r)`. -/
structure Req where
  parseFormOk : Bool
  now : Int
  nowMs : Int
  ua : Str
  referer : Str
  host : Str
  isGet : Bool
  path : Str
  queryCode : Str
  queryState : Str
  honeypotVal : Str
  latinOnlyEnabled : Bool
  formIsLatin : Bool
  tsField : Option (Option Int)
  jsToken : Str
  behavior : BehaviorInput
  accept : Str
  acceptLanguage : Str
  secFetchSite : Str
  secFetchMode : Str
  cookieJs : Option Str
  content : ContentSignals

/-- The engine configuration (the fields of `Config` the scoring path
reads).  `skipIf` models the user-supplied bypass predicate: absent
(`none`), or a function whose `none` result stands for a panic during
its evaluation and `some b` for a normal return of `b`. -/
structure Config where
  rateLimitTTL : Int
  rateLimitMax : Int
  blockThreshold : Int
  skipPaths : List Str
  skipIf : Option (Req → Option Bool)

/-- The path-prefix and OAuth-heuristic portion of `shouldBypass`
(source lines 545-574), evaluated after the custom predicate. -/
def shouldBypassRest (cfg : Config) (r : Req) : Bool × String :=
  if cfg.skipPaths.any (fun pref => !pref.isEmpty && hasPrefixL r.path pref) then
    (true, "bypass:skip_path")
  else if r.isGet then
    let code := trimSpaceL r.queryCode
    let state := trimSpaceL r.queryState
    let pathLower := toLowerL r.path
    let ref := toLowerL r.referer
    if !code.isEmpty && !state.isEmpty then (true, "bypass:oauth_flow")
    else if (containsL pathLower ("/oauth".toList) ||
             containsL pathLower ("/oauth2".toList) ||
             containsL pathLower ("/auth/".toList) ||
             hasSuffixL pathLower ("/callback".toList)) &&
            (!code.isEmpty || !state.isEmpty) then
      (true, "bypass:oauth_flow")
    else if containsL ref ("accounts.google.com".toList) ||
            containsL ref ("github.com/login".toList) ||
            containsL ref ("github.com/session".toList) then
      (true, "bypass:oauth_referer")
    else (false, "")
  else (false, "")

/-- `shouldBypass` (source lines 537-575).  When the custom predicate is
present, its panic (`f r = none`) unwinds `shouldBypass`; the deferred
`recover()` swallows it at function exit and the unnamed results take
their zero values `(false, "")` — the remaining rules are not reached. -/
def shouldBypass (cfg : Config) (r : Req) : Bool × String :=
  match cfg.skipIf with
  | some f =>
    match f r with
    | none => (false, "")
    | some true => (true, "bypass:custom")
    | some false => shouldBypassRest cfg r
  | none => shouldBypassRest cfg r

/-- The rate-limiter tick (source lines 129-139): keep the origin's
timestamps strictly younger than `now - ttl`, then append `now`. -/
def rateTick (hits : List Int) (now ttl : Int) : List Int :=
  hits.filter (fun t => now - t < ttl) ++ [now]

/-- The rate-limit penalty (lines 140-143): applied when the updated
window list — new entry included — exceeds `RateLimitMax`. -/
def ratePenalty (cfg : Config) (recent : List Int) : Int × List String :=
  if cfg.rateLimitMax < (recent.length : Int) then (-3, ["rate_limit_exceeded"])
  else (0, [])

/-- `threshold` (source lines 273-278): the configured `BlockThreshold`,
or `-5` when it is zero. -/
def threshold (cfg : Config) : Int :=
  if cfg.blockThreshold = 0 then -5 else cfg.blockThreshold

/-! ### The scoring checks of `CheckRequest` (source lines 161-246) -/

/-- Check 3, timestamp freshness: missing `ts` ⇒ `-3 missing_ts`;
unparseable, or `now.UnixMilli() - ts < 1500` ⇒ `-3 too_fast_submit`. -/
def tsPenalty (r : Req) : Int × List String :=
  match r.tsField with
  | none => (-3, ["missing_ts"])
  | some none => (-3, ["too_fast_submit"])
  | some (some ts) =>
    if r.nowMs - ts < 1500 then (-3, ["too_fast_submit"]) else (0, [])

/-- Check 4, JS token: must equal the sentinel `"set_by_js"`. -/
def tokenPenalty (r : Req) : Int × List String :=
  if r.jsToken ≠ "set_by_js".toList then (-2, ["missing_js_token"]) else (0, [])

/-- Check 5, behavior trace: a failed `checkBehavior` costs `-3` with
reason `behavior:<why>` (or `behavior_invalid` on an empty reason). -/
noncomputable def behaviorPenalty (r : Req) : Int × List String :=
  match checkBehavior r.behavior with
  | (true, _) => (0, [])
  | (false, why) =>
    (-3, [if why ≠ "" then "behavior:" ++ why else "behavior_invalid"])

/-- The condition of check 6's user-agent test:
`ua == "" || !strings.Contains(strings.ToLower(ua), "mozilla")`. -/
def uaSuspicious (ua : Str) : Bool :=
  ua.isEmpty || !containsL (toLowerL ua) ("mozilla".toList)

/-- Check 6a, browser-marker test: `-2 ua_suspicious`. -/
def uaPenalty (r : Req) : Int × List String :=
  if uaSuspicious r.ua then (-2, ["ua_suspicious"]) else (0, [])

/-- Check 6b, referer: missing ⇒ `-1 missing_referer`; present but not
containing the declared host ⇒ `-1 cross_site_referer`. -/
def refererPenalty (r : Req) : Int × List String :=
  if r.referer.isEmpty then (-1, ["missing_referer"])
  else if !r.host.isEmpty && !containsL r.referer r.host then
    (-1, ["cross_site_referer"])
  else (0, [])

/-- The condition of check 7: the headless/automation user-agent marker
list of source lines 204-212 (an empty user agent is in the list). -/
def headlessUA (ua : Str) : Bool :=
  containsL ua ("HeadlessChrome".toList) ||
  containsL ua ("PhantomJS".toList) ||
  containsL ua ("SlimerJS".toList) ||
  containsL ua ("Electron".toList) ||
  containsL ua ("Puppeteer".toList) ||
  ua.isEmpty ||
  containsL ua ("Go-http-client".toList) ||
  containsL ua ("curl".toList) ||
  containsL ua ("python-requests".toList)

/-- Check 7, headless/scripted user agent: `-4 headless_or_scripted_ua`. -/
def headlessPenalty (r : Req) : Int × List String :=
  if headlessUA r.ua then (-4, ["headless_or_scripted_ua"]) else (0, [])

/-- Check 7b (first half): both `Accept` and `Accept-Language` absent. -/
def acceptPenalty (r : Req) : Int × List String :=
  if r.accept.isEmpty && r.acceptLanguage.isEmpty then
    (-1, ["missing_accept_and_language"])
  else (0, [])

/-- Check 7b (second half): a Chromium-claiming user agent missing both
`Sec-Fetch-Site` and `Sec-Fetch-Mode`. -/
def secFetchPenalty (r : Req) : Int × List String :=
  if containsL (toLowerL r.ua) ("chrome".toList) &&
     r.secFetchSite.isEmpty && r.secFetchMode.isEmpty then
    (-1, ["missing_sec_fetch_headers"])
  else (0, [])

/-- Check 8, JS cookie: absent ⇒ `-3 missing_js_cookie`; present with a
value other than `"enabled"` ⇒ `-2 bad_js_cookie`. -/
def cookiePenalty (r : Req) : Int × List String :=
  match r.cookieJs with
  | none => (-3, ["missing_js_cookie"])
  | some v => if v ≠ "enabled".toList then (-2, ["bad_js_cookie"]) else (0, [])

/-- Check 9, content heuristics: the analyzer's delta and reasons are
folded in only when the delta is non-zero (source lines 243-246). -/
def contentPenalty (r : Req) : Int × List String :=
  let a := analyzeFormContent r.content
  if a.1 ≠ 0 then a else (0, [])

/-- The single pass over checks 3-9: the summed score delta and the
reason tags in source append order. -/
noncomputable def scoreChecks (r : Req) : Int × List String :=
  ((tsPenalty r).1 + (tokenPenalty r).1 + (behaviorPenalty r).1 +
   (uaPenalty r).1 + (refererPenalty r).1 + (headlessPenalty r).1 +
   (acceptPenalty r).1 + (secFetchPenalty r).1 + (cookiePenalty r).1 +
   (contentPenalty r).1,
   (tsPenalty r).2 ++ (tokenPenalty r).2 ++ (behaviorPenalty r).2 ++
   (uaPenalty r).2 ++ (refererPenalty r).2 ++ (headlessPenalty r).2 ++
   (acceptPenalty r).2 ++ (secFetchPenalty r).2 ++ (cookiePenalty r).2 ++
   (contentPenalty r).2)

/-- The verdict `CheckRequest` hands to the logging collaborator at the
point it returns: the boolean it returns, and the score and reason list
at that point. -/
structure Verdict where
  blocked : Bool
  score : Int
  reasons : List String
deriving DecidableEq

/-- `CheckRequest` (source lines 106-251) as a function of the
configuration, the request snapshot and the origin's current rate-window
list; returns the verdict and the origin's updated rate-window list.
In source order: malformed form ⇒ blocked, bypass ⇒ not blocked, the
rate-limiter tick, the honeypot and Latin-only hard stops, the scoring
pass, and the final threshold comparison. -/
noncomputable def checkRequest (cfg : Config) (r : Req) (hits : List Int) :
    Verdict × List Int :=
  if !r.parseFormOk then (⟨true, 0, []⟩, hits)
  else
    match shouldBypass cfg r with
    | (true, why) => (⟨false, 0, [why]⟩, hits)
    | (false, _) =>
      let recent := rateTick hits r.now cfg.rateLimitTTL
      let rp := ratePenalty cfg recent
      if trimSpaceL r.honeypotVal ≠ [] then
        (⟨true, rp.1, rp.2 ++ ["hidden_field_filled"]⟩, recent)
      else if r.latinOnlyEnabled && !r.formIsLatin then
        (⟨true, rp.1, rp.2 ++ ["non_latin_detected"]⟩, recent)
      else
        let sc := scoreChecks r
        let score := rp.1 + sc.1
        (⟨decide (score ≤ threshold cfg), score, rp.2 ++ sc.2⟩, recent)

/-! ### Concrete configurations, requests and traces used by the
witnesses and counterexamples -/

/-- A configuration with every scoring-relevant field at its
post-`New` default (`BlockThreshold` left at zero ⇒ effective `-5`). -/
def cfgW : Config := ⟨60000, 5, 0, [], none⟩

/-- A configuration with a very low threshold (`-100`), no bypass rules. -/
def cfgDeep : Config := ⟨60000, 5, -100, [], none⟩

/-- A configuration whose custom bypass predicate panics on every
request, alongside a configured skip path `/api`. -/
noncomputable def cfgPanic : Config :=
  ⟨60000, 5, -100, ["/api".toList], some (fun _ => none)⟩

/-- A configuration with the skip path `/api` and no custom predicate. -/
def cfgSkip : Config := ⟨60000, 5, 0, ["/api".toList], none⟩

/-- Content signals of an inconspicuous submission (no URLs, keywords,
emoji, punctuation runs; no name/website/email; a 20-rune message). -/
def neutralContent : ContentSignals :=
  ⟨0, false, 0, false, false, false, false, false, false, false, 20⟩

/-- A human-looking behavior trace: five positional events, strictly
increasing timestamps spanning 1000 ms, 80 units of movement, varied
inter-event deltas. -/
def goodTrace : List JEvent :=
  [⟨some (0, 0), 0⟩, ⟨some (20, 0), 100⟩, ⟨some (40, 0), 300⟩,
   ⟨some (60, 0), 600⟩, ⟨some (80, 0), 1000⟩]

/-- A request presenting every good signal: fresh timestamp, sentinel
token, valid trace, browser user agent, same-site referer, headers,
cookie, clean content, empty decoy field. -/
def reqGood : Req where
  parseFormOk := true
  now := 1000000
  nowMs := 5000
  ua := "Mozilla/5.0".toList
  referer := "https://example.com/form".toList
  host := "example.com".toList
  isGet := false
  path := "/submit".toList
  queryCode := []
  queryState := []
  honeypotVal := []
  latinOnlyEnabled := false
  formIsLatin := true
  tsField := some (some 1000)
  jsToken := "set_by_js".toList
  behavior := .events goodTrace
  accept := "text/html".toList
  acceptLanguage := "en-US".toList
  secFetchSite := []
  secFetchMode := []
  cookieJs := some ("enabled".toList)
  content := neutralContent

/-- A scripted-looking request: whitespace-only decoy value, no
timestamp, no token, no behavior data, empty user agent, no referer,
no headers, no cookie. -/
def reqBad : Req where
  parseFormOk := true
  now := 1000
  nowMs := 5000
  ua := []
  referer := []
  host := []
  isGet := false
  path := "/submit".toList
  queryCode := []
  queryState := []
  honeypotVal := " ".toList
  latinOnlyEnabled := false
  formIsLatin := true
  tsField := none
  jsToken := []
  behavior := .empty
  accept := []
  acceptLanguage := []
  secFetchSite := []
  secFetchMode := []
  cookieJs := none
  content := neutralContent

/-- `reqBad` aimed at the `/api` skip path, with a filled decoy field. -/
def reqApi : Req :=
  { reqBad with path := "/api/cb".toList, honeypotVal := "x".toList }

/-- `reqBad` with a decoy value that survives trimming. -/
def reqBadHp : Req := { reqBad with honeypotVal := "x".toList }

/-- A mixed trace: a positional event, a key/click event, and another
positional event at the same place as the first. -/
def mixedTrace : List JEvent :=
  [⟨some (10, 0), 0⟩, ⟨none, 1⟩, ⟨some (10, 0), 2⟩]

/-- Five stationary events whose total duration is exactly 600. -/
def trace600 : List Event :=
  [⟨0, 0, 0⟩, ⟨0, 0, 100⟩, ⟨0, 0, 250⟩, ⟨0, 0, 450⟩, ⟨0, 0, 600⟩]

/-- Five events whose total duration is 500 (under the 600 cutoff). -/
def trace500 : List Event :=
  [⟨0, 0, 0⟩, ⟨0, 0, 100⟩, ⟨0, 0, 200⟩, ⟨0, 0, 300⟩, ⟨0, 0, 500⟩]

/-- Content signals whose only finding is three message URLs. -/
def threeLinkContent : ContentSignals := { neutralContent with linkCount := 3 }

/-! ### Theorems -/

/-- Claim C9: after a rate-limiter tick at time `now` (prune, then
append), every retained timestamp lies within `[now - window, now]`, the
appended `now` is among them, and the resulting length — the count
`checkRequest` compares against `RateLimitMax` via `ratePenalty` —
counts the pruned survivors plus the new entry. -/
theorem rateTick_window_invariant (hits : List Int) (now ttl : Int)
    (hpast : ∀ t ∈ hits, t ≤ now) (httl : 0 ≤ ttl) :
    (∀ t ∈ rateTick hits now ttl, now - ttl ≤ t ∧ t ≤ now) ∧
    now ∈ rateTick hits now ttl ∧
    (rateTick hits now ttl).length =
      (hits.filter (fun t => now - t < ttl)).length + 1 := by
  refine ⟨?_, ?_, ?_⟩
  · intro t ht
    rcases List.mem_append.mp ht with h | h
    · have hmem := List.mem_filter.mp h
      have h1 : now - t < ttl := by simpa using hmem.2
      exact ⟨by omega, hpast t hmem.1⟩
    · have heq : t = now := by simpa using h
      subst heq
      exact ⟨by omega, le_refl _⟩
  · exact List.mem_append.mpr (Or.inr (by simp))
  · simp [rateTick]

/-- Witness for C9: the invariant at `hits = [5, 100]`, `now = 105`,
`ttl = 50` (the entry `5` is pruned, `100` survives, `105` is added). -/
theorem rateTick_window_invariant_witness :
    (∀ t ∈ rateTick [5, 100] 105 50, (105 : Int) - 50 ≤ t ∧ t ≤ 105) ∧
    (105 : Int) ∈ rateTick [5, 100] 105 50 ∧
    (rateTick [5, 100] 105 50).length =
      (([5, 100] : List Int).filter (fun t => 105 - t < 50)).length + 1 :=
  rateTick_window_invariant [5, 100] 105 50 (by decide) (by decide)

/-- Claim C8: for `n ≥ 1` message URLs, the analyzer's link penalty
`-2 - min (n-1) 2` equals `-2` for the first URL and `-1` per further
URL capped at a combined `-4`; with three or more URLs it is exactly
`-4`; and on a submission whose only finding is its `n` URLs (message at
least 15 runes long), `analyzeFormContent` yields exactly that penalty
and the single link reason. -/
theorem analyzeFormContent_link_penalty (n : Nat) (hn : 1 ≤ n) :
    linkPenalty n = max (-4) (-2 - ((n : Int) - 1)) ∧
    (3 ≤ n → linkPenalty n = -4) ∧
    (∀ s : ContentSignals, s.linkCount = n → s.keywordMatch = false →
      s.emojiCount < 5 → s.repeatedPunct = false → s.namePresent = false →
      s.websitePresent = false → s.emailPresent = false →
      15 ≤ s.msgRuneCount →
      analyzeFormContent s = (linkPenalty n, ["links_in_message:" ++ toString n])) := by
  refine ⟨?_, ?_, ?_⟩
  · simp only [linkPenalty]
    omega
  · intro h3
    simp only [linkPenalty]
    omega
  · intro s hlink hkw hemoji hpunct hname hweb hmail hlen
    have h1 : 0 < n := hn
    have h2 : ¬ (5 : ℕ) ≤ s.emojiCount := by omega
    have h3 : ¬ (12 : ℕ) ≤ s.emojiCount := by omega
    have h4 : ¬ s.msgRuneCount < 15 := by omega
    simp [analyzeFormContent, hlink, hkw, hname, hweb, hmail, hpunct,
      h1, h2, h3, h4]

/-- Witness for C8 at `n = 3`: three URLs and nothing else yield exactly
`(-4, ["links_in_message:3"])`. -/
theorem analyzeFormContent_link_penalty_witness :
    linkPenalty 3 = max (-4) (-2 - ((3 : Int) - 1)) ∧
    (3 ≤ 3 → linkPenalty 3 = -4) ∧
    (∀ s : ContentSignals, s.linkCount = 3 → s.keywordMatch = false →
      s.emojiCount < 5 → s.repeatedPunct = false → s.namePresent = false →
      s.websitePresent = false → s.emailPresent = false →
      15 ≤ s.msgRuneCount →
      analyzeFormContent s = (linkPenalty 3, ["links_in_message:" ++ toString 3])) :=
  analyzeFormContent_link_penalty 3 (by decide)

/-- Counterexample to claim C4: with a panicking custom predicate and a
matching configured skip path, `shouldBypass` returns `(false, "")` —
the deferred `recover()` fires as the function unwinds, so the
path-prefix rule (which would have matched, as the second conjunct
shows) and the OAuth heuristic are never evaluated. -/
theorem shouldBypass_panic_skips_later_rules :
    shouldBypass cfgPanic reqApi = (false, "") ∧
    shouldBypassRest cfgPanic reqApi = (true, "bypass:skip_path") :=
  ⟨rfl, rfl⟩

/-- Claim C4 as amended: a panic inside the user-supplied bypass
predicate is swallowed (request handling continues, `shouldBypass`
returns a value rather than propagating the failure), but the whole
bypass evaluation ends there with "no bypass": the path-prefix and
OAuth rules are not evaluated for that request. -/
theorem shouldBypass_panic_swallowed (cfg : Config) (r : Req)
    (f : Req → Option Bool) (hf : cfg.skipIf = some f) (hpanic : f r = none) :
    shouldBypass cfg r = (false, "") := by
  simp [shouldBypass, hf, hpanic]

/-- Witness for the amended C4 at the concrete panicking configuration. -/
theorem shouldBypass_panic_swallowed_witness :
    shouldBypass cfgPanic reqApi = (false, "") :=
  shouldBypass_panic_swallowed cfgPanic reqApi (fun _ => none) rfl rfl

/-- Counterexample to claim C5: the request path `/api/cb` has the
configured non-empty skip-path prefix `/api`, yet `CheckRequest` blocks
(the panicking custom predicate makes `shouldBypass` return before the
path rule, and the filled decoy field then triggers the honeypot stop). -/
theorem skip_path_overridden_by_panic :
    ("/api".toList ∈ cfgPanic.skipPaths ∧
      hasPrefixL reqApi.path ("/api".toList) = true) ∧
    (checkRequest cfgPanic reqApi []).1.blocked = true := by
  refine ⟨⟨by simp [cfgPanic], rfl⟩, ?_⟩
  rfl

/-- Claim C5 as amended: for a request whose form data parses and whose
URL path has a configured non-empty skip-path prefix, if the custom
bypass predicate (when present) does not panic on the request, the
evaluation returns `blocked = false` — even when the decoy field is
non-empty, since the bypass is evaluated before the honeypot check. -/
theorem skip_path_bypasses_honeypot (cfg : Config) (r : Req) (hits : List Int)
    (hform : r.parseFormOk = true)
    (hnopanic : ∀ f, cfg.skipIf = some f → f r ≠ none)
    (hpath : cfg.skipPaths.any
      (fun pref => !pref.isEmpty && hasPrefixL r.path pref) = true) :
    (checkRequest cfg r hits).1.blocked = false := by
  have hrest : shouldBypassRest cfg r = (true, "bypass:skip_path") := by
    simp only [shouldBypassRest, hpath, if_pos]
  have hby : (shouldBypass cfg r = (true, "bypass:skip_path")) ∨
      (shouldBypass cfg r = (true, "bypass:custom")) := by
    cases hsk : cfg.skipIf with
    | none => exact Or.inl (by simp [shouldBypass, hsk, hrest])
    | some f =>
      cases hfr : f r with
      | none => exact absurd hfr (hnopanic f hsk)
      | some b =>
        cases b with
        | true => exact Or.inr (by simp [shouldBypass, hsk, hfr])
        | false => exact Or.inl (by simp [shouldBypass, hsk, hfr, hrest])
  rcases hby with h | h <;>
    simp [checkRequest, hform, h]

/-- Witness for the amended C5: skip path `/api`, no custom predicate,
decoy field filled — the request is not blocked. -/
theorem skip_path_bypasses_honeypot_witness :
    (checkRequest cfgSkip reqApi []).1.blocked = false :=
  skip_path_bypasses_honeypot cfgSkip reqApi []
    rfl (fun f hf => by simp [cfgSkip] at hf) rfl

/-- Counterexample to claim C1: the request `reqBad` is not bypassed and
its decoy field carries the non-empty value `" "`, yet under the `-100`
threshold `CheckRequest` neither blocks nor records the honeypot reason
— `strings.TrimSpace` empties the whitespace-only value before the
non-emptiness test, so the honeypot does not short-circuit. -/
theorem whitespace_decoy_not_blocked :
    reqBad.honeypotVal ≠ [] ∧
    (shouldBypass cfgDeep reqBad).1 = false ∧
    (checkRequest cfgDeep reqBad []).1.blocked = false ∧
    "hidden_field_filled" ∉ (checkRequest cfgDeep reqBad []).1.reasons := by
  have hv : (checkRequest cfgDeep reqBad []).1 =
      ⟨false, -19,
       ["missing_ts", "missing_js_token", "behavior:missing_behavior",
        "ua_suspicious", "missing_referer", "headless_or_scripted_ua",
        "missing_accept_and_language", "missing_js_cookie"]⟩ := rfl
  refine ⟨by decide, rfl, by rw [hv], by rw [hv]; decide⟩

/-- Claim C1 as amended: for every request that parses and is not
bypassed, if the decoy field's value is non-empty after whitespace
trimming, evaluation short-circuits with `blocked = true`, the reason
`hidden_field_filled` appended after any rate-limit reason, and no later
check contributing: the verdict carries exactly the rate-limit penalty
and reasons plus the honeypot reason. -/
theorem honeypot_filled_blocks (cfg : Config) (r : Req) (hits : List Int)
    (hform : r.parseFormOk = true)
    (hby : (shouldBypass cfg r).1 = false)
    (hhp : trimSpaceL r.honeypotVal ≠ []) :
    checkRequest cfg r hits =
      (⟨true, (ratePenalty cfg (rateTick hits r.now cfg.rateLimitTTL)).1,
        (ratePenalty cfg (rateTick hits r.now cfg.rateLimitTTL)).2 ++
          ["hidden_field_filled"]⟩,
       rateTick hits r.now cfg.rateLimitTTL) := by
  rcases hsb : shouldBypass cfg r with ⟨b, w⟩
  rw [hsb] at hby
  simp only at hby
  subst hby
  simp [checkRequest, hform, hsb, hhp]

/-- Witness for the amended C1: decoy value `"x"` on an otherwise empty
window blocks with exactly the honeypot reason. -/
theorem honeypot_filled_blocks_witness :
    checkRequest cfgSkip reqBadHp [] =
      (⟨true, (ratePenalty cfgSkip (rateTick [] reqBadHp.now cfgSkip.rateLimitTTL)).1,
        (ratePenalty cfgSkip (rateTick [] reqBadHp.now cfgSkip.rateLimitTTL)).2 ++
          ["hidden_field_filled"]⟩,
       rateTick [] reqBadHp.now cfgSkip.rateLimitTTL) :=
  honeypot_filled_blocks cfgSkip reqBadHp [] rfl rfl (by decide)

/-- On a request that reaches the scoring pass (form parses, no bypass,
neither hard stop taken), `checkRequest` returns the rate-tick state and
the verdict built from the rate penalty plus the scoring-pass totals,
blocked iff the score is at most the threshold. -/
theorem checkRequest_scored (cfg : Config) (r : Req) (hits : List Int)
    (hform : r.parseFormOk = true)
    (hby : (shouldBypass cfg r).1 = false)
    (hhp : trimSpaceL r.honeypotVal = [])
    (hlatin : (r.latinOnlyEnabled && !r.formIsLatin) = false) :
    checkRequest cfg r hits =
      (⟨decide ((ratePenalty cfg (rateTick hits r.now cfg.rateLimitTTL)).1 +
          (scoreChecks r).1 ≤ threshold cfg),
        (ratePenalty cfg (rateTick hits r.now cfg.rateLimitTTL)).1 +
          (scoreChecks r).1,
        (ratePenalty cfg (rateTick hits r.now cfg.rateLimitTTL)).2 ++
          (scoreChecks r).2⟩,
       rateTick hits r.now cfg.rateLimitTTL) := by
  rcases hsb : shouldBypass cfg r with ⟨b, w⟩
  rw [hsb] at hby
  simp only at hby
  subst hby
  simp [checkRequest, hform, hsb, hhp, hlatin]

/-- Claim C2: for every request reaching the final verdict step (form
parses, no bypass, honeypot and Latin-only hard stops not taken), the
verdict is `blocked = true` iff the accumulated score is at most the
effective threshold, which is the configured `BlockThreshold` when
non-zero and `-5` when the configured value is zero. -/
theorem verdict_iff_threshold (cfg : Config) (r : Req) (hits : List Int)
    (hform : r.parseFormOk = true)
    (hby : (shouldBypass cfg r).1 = false)
    (hhp : trimSpaceL r.honeypotVal = [])
    (hlatin : (r.latinOnlyEnabled && !r.formIsLatin) = false) :
    ((checkRequest cfg r hits).1.blocked = true ↔
      (checkRequest cfg r hits).1.score ≤ threshold cfg) ∧
    (cfg.blockThreshold = 0 → threshold cfg = -5) ∧
    (cfg.blockThreshold ≠ 0 → threshold cfg = cfg.blockThreshold) := by
  refine ⟨?_, fun h => by simp [threshold, h], fun h => by simp [threshold, h]⟩
  rw [checkRequest_scored cfg r hits hform hby hhp hlatin]
  simp

/-- Witness for C2 at the default configuration (`BlockThreshold = 0`,
effective threshold `-5`) and a scoring request. -/
theorem verdict_iff_threshold_witness :
    (((checkRequest cfgW reqBad []).1.blocked = true ↔
      (checkRequest cfgW reqBad []).1.score ≤ threshold cfgW)) ∧
    (cfgW.blockThreshold = 0 → threshold cfgW = -5) ∧
    (cfgW.blockThreshold ≠ 0 → threshold cfgW = cfgW.blockThreshold) :=
  verdict_iff_threshold cfgW reqBad [] rfl rfl (by decide) rfl

/-- Claim C10: a request with an empty `User-Agent` trips both
user-agent checks — `-2` with `ua_suspicious` and a further `-4` with
`headless_or_scripted_ua` (the empty string is in the headless marker
list) — contributing `-6` and both reasons to any evaluation that
reaches the scoring pass. -/
theorem empty_ua_double_penalty (cfg : Config) (r : Req) (hits : List Int)
    (hform : r.parseFormOk = true)
    (hby : (shouldBypass cfg r).1 = false)
    (hhp : trimSpaceL r.honeypotVal = [])
    (hlatin : (r.latinOnlyEnabled && !r.formIsLatin) = false)
    (hua : r.ua = []) :
    uaPenalty r = (-2, ["ua_suspicious"]) ∧
    headlessPenalty r = (-4, ["headless_or_scripted_ua"]) ∧
    (uaPenalty r).1 + (headlessPenalty r).1 = -6 ∧
    "ua_suspicious" ∈ (checkRequest cfg r hits).1.reasons ∧
    "headless_or_scripted_ua" ∈ (checkRequest cfg r hits).1.reasons := by
  have hu : uaPenalty r = (-2, ["ua_suspicious"]) := by
    simp [uaPenalty, uaSuspicious, hua]
  have hh : headlessPenalty r = (-4, ["headless_or_scripted_ua"]) := by
    simp [headlessPenalty, headlessUA, hua]
  refine ⟨hu, hh, by rw [hu, hh]; rfl, ?_, ?_⟩ <;>
    rw [checkRequest_scored cfg r hits hform hby hhp hlatin] <;>
    simp [scoreChecks, hu, hh]

/-- Witness for C10 at `reqBad` (empty user agent): both penalties fire
and both reasons appear in the verdict. -/
theorem empty_ua_double_penalty_witness :
    uaPenalty reqBad = (-2, ["ua_suspicious"]) ∧
    headlessPenalty reqBad = (-4, ["headless_or_scripted_ua"]) ∧
    (uaPenalty reqBad).1 + (headlessPenalty reqBad).1 = -6 ∧
    "ua_suspicious" ∈ (checkRequest cfgW reqBad []).1.reasons ∧
    "headless_or_scripted_ua" ∈ (checkRequest cfgW reqBad []).1.reasons :=
  empty_ua_double_penalty cfgW reqBad [] rfl rfl (by decide) rfl rfl

/-- Axis-aligned hypotenuse: `hypotR a 0 = |a|`. -/
theorem hypotR_axis (a : Int) : hypotR a 0 = |(a : ℝ)| := by
  rw [hypotR]
  push_cast
  rw [show ((a : ℝ) ^ 2 + 0 ^ 2) = (a : ℝ) ^ 2 by ring, Real.sqrt_sq_eq_abs]

/-- `totalDist` is the pairwise distance along the events' coordinates. -/
theorem totalDist_eq_pairDist (evs : List Event) :
    totalDist evs = pairDist (evs.map (fun e => (e.x, e.y))) := by
  induction evs with
  | nil => rfl
  | cons a rest ih =>
    cases rest with
    | nil => rfl
    | cons b rest2 =>
      simp only [List.map_cons] at ih ⊢
      rw [totalDist, pairDist, ih]

/-- Counterexample to claim C6: on the mixed trace
`[pos (10,0) @0, key @1, pos (10,0) @2]` the engine's cumulative
movement differs from the spec's positional-only movement — the decoded
key event sits at `(0,0)`, contributing two 10-unit hops where the spec
prescribes zero movement between the two identical positions. -/
theorem mixed_trace_distance_differs :
    totalDist (mixedTrace.map toEvent) ≠ specMovementDist mixedTrace := by
  have h1 : totalDist (mixedTrace.map toEvent) = 20 := by
    show hypotR (0 - 10) (0 - 0) + (hypotR (10 - 0) (0 - 0) + 0) = 20
    norm_num [hypotR_axis]
  have h2 : specMovementDist mixedTrace = 0 := by
    show hypotR (10 - 10) (0 - 0) + 0 = 0
    norm_num [hypotR_axis]
  rw [h1, h2]
  norm_num

/-- The spec-side positional filter, applied to the trace where every
event was made positional, keeps every assigned position. -/
theorem positionsOf_allPositional (evs : List JEvent) :
    positionsOf (allPositional evs) = evs.map posOf := by
  induction evs with
  | nil => rfl
  | cons e rest ih =>
    show posOf e :: positionsOf (allPositional rest) = posOf e :: rest.map posOf
    rw [ih]

/-- The coordinates of the decoded events are exactly the assigned
positions. -/
theorem map_coords_toEvent (evs : List JEvent) :
    (evs.map toEvent).map (fun e => (e.x, e.y)) = evs.map posOf := by
  induction evs with
  | nil => rfl
  | cons e rest ih =>
    show ((toEvent e).x, (toEvent e).y) ::
        (rest.map toEvent).map (fun e => (e.x, e.y)) = posOf e :: rest.map posOf
    rw [ih]
    rfl

/-- Claim C6 as amended: the engine's cumulative movement distance sums
the Euclidean distance between every pair of consecutive decoded events,
with each non-positional (key/click) event decoded to the origin
`(0, 0)`: it equals the spec's positional-only pairwise distance over
the trace in which every event has been made positional at the
coordinates `json.Unmarshal` assigns it. -/
theorem movement_counts_all_consecutive_events (evs : List JEvent) :
    totalDist (evs.map toEvent) = specMovementDist (allPositional evs) := by
  rw [totalDist_eq_pairDist, specMovementDist, positionsOf_allPositional,
    map_coords_toEvent]

/-- Counterexample to claim C7: `trace600` passes the decode, count and
monotonicity checks and its total duration is exactly 600 — which "does
not exceed 600" — yet the validator does not fail with the too-short
reason: the guard is `dur < 600`, so it proceeds and fails on low
movement instead. -/
theorem duration_600_passes_short_check :
    durOf trace600 = 600 ∧
    checkBehaviorEvents trace600 = (false, "behavior_low_movement") := by
  refine ⟨by decide, ?_⟩
  rw [checkBehaviorEvents, if_neg (by decide), if_neg (by decide),
    if_neg (by decide)]
  have hdist : totalDist trace600 = 0 := by
    show hypotR 0 0 + (hypotR 0 0 + (hypotR 0 0 + (hypotR 0 0 + 0))) = 0
    norm_num [hypotR_axis]
  rw [if_pos (by rw [hdist]; norm_num)]

/-- Claim C7 as amended: for a trace that passes the decode, event-count
and monotonicity checks, validation fails with the "too short" reason
exactly when the total duration is strictly less than 600 ms; a trace
whose duration is 600 or more passes this step. -/
theorem too_short_iff_duration_lt_600 (evs : List Event)
    (h5 : ¬ evs.length < 5) (hm : monoOk evs = true) :
    (checkBehaviorEvents evs = (false, "behavior_too_short") ↔
      durOf evs < 600) := by
  rw [checkBehaviorEvents, if_neg h5, if_neg (by simp [hm])]
  by_cases hd : durOf evs < 600
  · simp [hd]
  · rw [if_neg hd]
    simp only [hd, iff_false]
    intro h
    split at h
    · exact absurd (congrArg Prod.snd h) (by decide)
    · split at h
      · split at h
        · exact absurd (congrArg Prod.snd h) (by decide)
        · exact absurd (congrArg Prod.snd h) (by decide)
      · exact absurd (congrArg Prod.snd h) (by decide)

/-- Witness for the amended C7 at `trace500` (duration 500): the
equivalence holds there, and indeed the validator reports too-short. -/
theorem too_short_iff_duration_lt_600_witness :
    (checkBehaviorEvents trace500 = (false, "behavior_too_short") ↔
      durOf trace500 < 600) :=
  too_short_iff_duration_lt_600 trace500 (by decide) (by decide)

/-- The validator accepts the concrete human-looking trace `goodTrace`:
five events, strictly increasing stamps over 1000 ms, 80 units of
movement, inter-event deltas `[100, 200, 300, 400]` (variance 12500). -/
theorem checkBehavior_goodTrace :
    checkBehavior (.events goodTrace) = (true, "") := by
  show checkBehaviorEvents (goodTrace.map toEvent) = (true, "")
  have hmap : goodTrace.map toEvent =
      [⟨0, 0, 0⟩, ⟨20, 0, 100⟩, ⟨40, 0, 300⟩, ⟨60, 0, 600⟩, ⟨80, 0, 1000⟩] := by
    rfl
  rw [hmap, checkBehaviorEvents, if_neg (by decide), if_neg (by decide),
    if_neg (by decide)]
  have hdist : totalDist
      [⟨0, 0, 0⟩, ⟨20, 0, 100⟩, ⟨40, 0, 300⟩, ⟨60, 0, 600⟩, ⟨80, 0, 1000⟩] = 80 := by
    show hypotR 20 0 + (hypotR 20 0 + (hypotR 20 0 + (hypotR 20 0 + 0))) = 80
    norm_num [hypotR_axis]
  rw [if_neg (by rw [hdist]; norm_num)]
  have hstd : ¬ Real.sqrt (12500 : ℝ) < 10 := by
    rw [Real.sqrt_lt' (by norm_num : (0 : ℝ) < 10)]
    norm_num
  norm_num [deltasOf, hstd]

/-- Claim C3: a request with no adverse findings — form parses, rate
window within bounds, empty (trimmed) decoy field, Latin gate passing,
fresh parsed timestamp, sentinel token, accepted behavior trace,
browser-marked non-headless user agent, same-site referer, Accept or
Accept-Language present, Sec-Fetch headers wherever a Chromium UA
demands them, the `enabled` cookie, and a zero content delta — scores
exactly 0 and is not blocked for any configured threshold ≤ 0 (a
bypassed request likewise returns score 0, unblocked). -/
theorem clean_request_scores_zero (cfg : Config) (r : Req) (hits : List Int)
    (hth : cfg.blockThreshold ≤ 0)
    (hform : r.parseFormOk = true)
    (hrate : ((rateTick hits r.now cfg.rateLimitTTL).length : Int) ≤
      cfg.rateLimitMax)
    (hhp : trimSpaceL r.honeypotVal = [])
    (hlatin : (r.latinOnlyEnabled && !r.formIsLatin) = false)
    (hts : ∃ v, r.tsField = some (some v) ∧ 1500 ≤ r.nowMs - v)
    (htok : r.jsToken = "set_by_js".toList)
    (hbeh : checkBehavior r.behavior = (true, ""))
    (hmoz : containsL (toLowerL r.ua) ("mozilla".toList) = true)
    (hhead : headlessUA r.ua = false)
    (href : r.referer ≠ [] ∧ (r.host ≠ [] → containsL r.referer r.host = true))
    (hacc : r.accept ≠ [] ∨ r.acceptLanguage ≠ [])
    (hsec : containsL (toLowerL r.ua) ("chrome".toList) = true →
      r.secFetchSite ≠ [] ∨ r.secFetchMode ≠ [])
    (hcook : r.cookieJs = some ("enabled".toList))
    (hcont : (analyzeFormContent r.content).1 = 0) :
    (checkRequest cfg r hits).1.score = 0 ∧
    (checkRequest cfg r hits).1.blocked = false := by
  rcases hsb : shouldBypass cfg r with ⟨b, w⟩
  cases b
  case true => simp [checkRequest, hform, hsb]
  case false =>
    have hrp0 : ratePenalty cfg (rateTick hits r.now cfg.rateLimitTTL) = (0, []) := by
      rw [ratePenalty, if_neg (by omega)]
    have htsP : tsPenalty r = (0, []) := by
      obtain ⟨v, hv, hfresh⟩ := hts
      simp only [tsPenalty, hv]
      rw [if_neg (by omega)]
    have htokP : tokenPenalty r = (0, []) := by
      simp [tokenPenalty, htok]
    have hbehP : behaviorPenalty r = (0, []) := by
      simp only [behaviorPenalty, hbeh]
    have huaE : r.ua.isEmpty = false := by
      cases hua : r.ua with
      | nil => rw [hua] at hmoz; exact absurd hmoz (by decide)
      | cons c rest => rfl
    have huaP : uaPenalty r = (0, []) := by
      rw [uaPenalty, uaSuspicious, huaE, hmoz, if_neg (by decide)]
    have hrefP : refererPenalty r = (0, []) := by
      obtain ⟨hrefne, hrefhost⟩ := href
      have hrefE : r.referer.isEmpty = false := by
        cases h : r.referer with
        | nil => exact absurd h hrefne
        | cons c rest => rfl
      rw [refererPenalty, if_neg (by simp [hrefE])]
      cases hh : r.host with
      | nil => simp
      | cons c rest =>
        have hc : containsL r.referer (c :: rest) = true := by
          have := hrefhost (by rw [hh]; simp)
          rwa [hh] at this
        simp [hc]
    have hheadP : headlessPenalty r = (0, []) := by
      simp [headlessPenalty, hhead]
    have haccP : acceptPenalty r = (0, []) := by
      rcases hacc with h | h
      · have he : r.accept.isEmpty = false := by
          cases hx : r.accept with
          | nil => exact absurd hx h
          | cons c rest => rfl
        simp [acceptPenalty, he]
      · have he : r.acceptLanguage.isEmpty = false := by
          cases hx : r.acceptLanguage with
          | nil => exact absurd hx h
          | cons c rest => rfl
        simp [acceptPenalty, he]
    have hsecP : secFetchPenalty r = (0, []) := by
      cases hch : containsL (toLowerL r.ua) ("chrome".toList) with
      | false =>
        rw [secFetchPenalty, hch]
        rfl
      | true =>
        rcases hsec hch with h | h
        · have he : r.secFetchSite.isEmpty = false := by
            cases hx : r.secFetchSite with
            | nil => exact absurd hx h
            | cons c rest => rfl
          simp [secFetchPenalty, he]
        · have he : r.secFetchMode.isEmpty = false := by
            cases hx : r.secFetchMode with
            | nil => exact absurd hx h
            | cons c rest => rfl
          simp [secFetchPenalty, he]
    have hcookP : cookiePenalty r = (0, []) := by
      simp [cookiePenalty, hcook]
    have hcontP : contentPenalty r = (0, []) := by
      simp [contentPenalty, hcont]
    have hsc : scoreChecks r = (0, []) := by
      rw [scoreChecks, htsP, htokP, hbehP, huaP, hrefP, hheadP, haccP,
        hsecP, hcookP, hcontP]
      norm_num
    have hthr : threshold cfg < 0 := by
      rw [threshold]
      split
      · norm_num
      · omega
    rw [checkRequest_scored cfg r hits hform (by rw [hsb]) hhp hlatin]
    refine ⟨by simp [hrp0, hsc], ?_⟩
    simp only [hrp0, hsc]
    simp only [decide_eq_false_iff_not]
    show ¬ ((0 : Int) + 0 ≤ threshold cfg)
    omega

/-- Witness for C3: the all-good request `reqGood` under the default
configuration scores 0 and is not blocked. -/
theorem clean_request_scores_zero_witness :
    (checkRequest cfgW reqGood []).1.score = 0 ∧
    (checkRequest cfgW reqGood []).1.blocked = false :=
  clean_request_scores_zero cfgW reqGood [] (by decide) rfl (by decide)
    rfl rfl ⟨1000, rfl, by decide⟩ rfl checkBehavior_goodTrace
    (by decide) (by decide) ⟨by decide, fun _ => by decide⟩
    (Or.inl (by decide)) (fun h => absurd h (by decide)) rfl (by decide)

end GoCaptcha
